import Mathlib

/-!
Verification of the Vision-PRO camera stream lifecycle and detection event
pipeline, as implemented in the repository's backend.  Each Python component
named in the claims is shallowly embedded as an executable Lean definition:

* `ConnectOutcome`, `runLoopDelays`      — `CameraStream._run_loop` reconnect
  backoff (src/backend/app/services/stream_manager.py, lines 107-144)
* `CameraStream`, `StreamManager`        — supervisor state and the registry
  (stream_manager.py)
* `Subscriber`, `ConnectionManager`      — the WebSocket broadcast hub
  (src/backend/app/core/websocket.py)
* `CooldownTracker`, `process_results`   — the detection worker
  (src/backend/app/workers/yolo_worker.py)
* `PyStmt`, `evalStmts`                  — name resolution of the worker
  module's top-level statements, used for the import-time claims.

Machine floats in the source (confidences, timestamps, backoff seconds) are
modelled by rationals; every numeric value exercised by the claims is exactly
representable as a binary float, so the translation is exact on those inputs.
-/

namespace VisionPro

/-! ### Reconnect backoff — `CameraStream._run_loop`

The loop keeps a local `backoff` variable, initially `2.0`.  A failed connect
sleeps `backoff` seconds and then sets `backoff = min(backoff * 2, 30.0)`;
an exception escaping the read loop does the same; a successful connect
resets `backoff = 2.0` and emits no sleep (a failed read inside the read
loop breaks back to connect without sleeping). -/

/-- Outcome of one iteration of the supervisor's `while self._running` loop:
a failed connect attempt, a successful connect (whose read loop eventually
ends with a read failure and no sleep), or an exception escaping the read
loop (the generic `except` arm, which sleeps like a connect failure). -/
inductive ConnectOutcome
  | ok
  | fail
  | streamExc
  deriving DecidableEq, Repr

/-- Backoff update after a failure: `backoff = min(backoff * 2, 30.0)`. -/
def nextBackoff (b : Nat) : Nat := min (b * 2) 30

/-- Initial backoff value of `_run_loop`: `backoff = 2.0`. -/
def initialBackoff : Nat := 2

/-- The sequence of sleep delays emitted by `_run_loop`, given the current
backoff value and the trace of per-iteration outcomes.  A connect failure
and a read-loop exception both sleep the current backoff and then double it
(capped); a successful connect resets the backoff to the initial value and
sleeps nothing. -/
def runLoopDelays : Nat → List ConnectOutcome → List Nat
  | _, [] => []
  | b, ConnectOutcome.fail :: rest => b :: runLoopDelays (nextBackoff b) rest
  | b, ConnectOutcome.streamExc :: rest => b :: runLoopDelays (nextBackoff b) rest
  | _, ConnectOutcome.ok :: rest => runLoopDelays initialBackoff rest

/-- Closed form of the backoff value after `k` consecutive failures. -/
def backoffAt (k : Nat) : Nat := min (2 ^ (k + 1)) 30

/-! ### Supervisor and registry — `CameraStream`, `StreamManager` -/

/-- Encoded JPEG bytes, modelled as a list of byte values. -/
abbrev Bytes := List Nat

/-- A raw decoded BGR frame: its pixel dimensions plus payload. -/
structure RawFrame where
  rows : Int
  cols : Int
  data : Bytes
  deriving DecidableEq, Repr

/-- State of one `CameraStream` supervisor.  `running` is `self._running`,
`hasCap` records whether `self._cap` currently holds an adapter handle,
`taskStarted` records that `asyncio.create_task` ran, `connected` is
`self.health.connected`, and `stopRaises` abstracts whether awaiting the
background task during `stop()` re-raises a task exception. -/
structure CameraStream where
  camera_id : String
  rtsp_url : String
  target_fps : Nat
  running : Bool
  hasCap : Bool
  taskStarted : Bool
  latest_frame : Option Bytes
  latest_raw : Option RawFrame
  connected : Bool
  stopRaises : Bool
  deriving DecidableEq, Repr

/-- A freshly constructed `CameraStream(camera_id, rtsp_url, target_fps)`. -/
def CameraStream.mkNew (cid url : String) (fps : Nat) : CameraStream :=
  { camera_id := cid, rtsp_url := url, target_fps := fps,
    running := false, hasCap := false, taskStarted := false,
    latest_frame := none, latest_raw := none,
    connected := false, stopRaises := false }

/-- The `CameraStream.start` method: an early return when `self._running`
is already set, otherwise mark running and create the background task. -/
def CameraStream.start (s : CameraStream) : CameraStream :=
  if s.running then s
  else { s with running := true, taskStarted := true }

/-- State after a `CameraStream.stop` call that completes normally: the
running flag is cleared, the capture handle is released, and the health
snapshot is marked disconnected.  The latest-frame cache fields are not
touched by the source method. -/
def CameraStream.stopRun (s : CameraStream) : CameraStream :=
  { s with running := false, hasCap := false, connected := false }

/-- The `CameraStream.stop` method, which may re-raise a task exception
from `await self._task` (anything other than `CancelledError`). -/
def CameraStream.stop (s : CameraStream) : Except String CameraStream :=
  if s.stopRaises then Except.error s.camera_id
  else Except.ok s.stopRun

/-- The `CameraStream.get_snapshot` method: return `self._latest_frame`. -/
def CameraStream.get_snapshot (s : CameraStream) : Option Bytes := s.latest_frame

/-- The `CameraStream.get_raw_frame` method: return `self._latest_raw`. -/
def CameraStream.get_raw_frame (s : CameraStream) : Option RawFrame := s.latest_raw

/-- The `StreamManager` registry: `self._streams`, an insertion-ordered map
from camera id to supervisor, modelled as an association list. -/
structure StreamManager where
  streams : List (String × CameraStream)
  deriving DecidableEq, Repr

/-- Dictionary lookup `self._streams.get(camera_id)`. -/
def StreamManager.lookup (m : StreamManager) (cid : String) : Option CameraStream :=
  (m.streams.find? (fun p => p.1 == cid)).map (·.2)

/-- The registry keys are pairwise distinct, as they are in a Python dict. -/
def StreamManager.keysNodup (m : StreamManager) : Prop :=
  (m.streams.map Prod.fst).Nodup

/-- The `StreamManager.start_stream` method: return the existing supervisor
untouched when the id is present, otherwise construct one, start it, and
index it. -/
def StreamManager.start_stream (m : StreamManager) (cid url : String) (fps : Nat) :
    CameraStream × StreamManager :=
  match m.lookup cid with
  | some s => (s, m)
  | none =>
      let s := (CameraStream.mkNew cid url fps).start
      (s, ⟨m.streams ++ [(cid, s)]⟩)

/-- The `StreamManager.stop_stream` method: `self._streams.pop(camera_id,
None)` followed by `await stream.stop()` when an entry was present.  The pop
happens before the stop, so the entry is gone even when the stop raises; the
second component reports the id whose stop raised, if any. -/
def StreamManager.stop_stream (m : StreamManager) (cid : String) :
    StreamManager × Option String :=
  match m.lookup cid with
  | none => (m, none)
  | some s =>
      let m1 : StreamManager := ⟨m.streams.eraseP (fun p => p.1 == cid)⟩
      match s.stop with
      | Except.ok _ => (m1, none)
      | Except.error e => (m1, some e)

/-- The `StreamManager.get_snapshot` accessor: look the id up and read the
supervisor's latest-frame cache, or report unavailable. -/
def StreamManager.get_snapshot (m : StreamManager) (cid : String) : Option Bytes :=
  match m.lookup cid with
  | some s => s.get_snapshot
  | none => none

/-- The body of `StreamManager.stop_all`: iterate over a snapshot of the
registry's keys, awaiting `stop_stream` on each; an exception raised by one
stop propagates and aborts the remaining iterations.  Returns the final
registry, the ids whose supervisors were stopped successfully, and the id
whose stop raised, if any. -/
def stopAllGo : StreamManager → List String → StreamManager × List String × Option String
  | m, [] => (m, [], none)
  | m, cid :: rest =>
      match m.stop_stream cid with
      | (m1, some e) => (m1, [], some e)
      | (m1, none) =>
          match stopAllGo m1 rest with
          | (m2, stopped, err) =>
              (m2, (if (m.lookup cid).isSome then [cid] else []) ++ stopped, err)

/-- The `StreamManager.stop_all` method: `camera_ids =
list(self._streams.keys())` then the loop above. -/
def StreamManager.stop_all (m : StreamManager) :
    StreamManager × List String × Option String :=
  stopAllGo m (m.streams.map Prod.fst)

/-! ### Broadcast hub — `ConnectionManager` (websocket.py)

Channels map a name to a set of WebSocket handles; `broadcast_bytes` takes a
snapshot copy of the channel's set under the lock, sends to each member,
collects the members whose send raised into `dead`, and afterwards discards
each dead member from the live set (when the channel still exists). -/

/-- A subscriber handle.  `fails` abstracts whether `send_bytes` to this
WebSocket raises during the current publish pass. -/
structure Subscriber where
  id : Nat
  fails : Bool
  deriving DecidableEq, Repr

/-- The hub state: `self._connections`, a map from channel name to the set
of subscribed handles, modelled as an association list of duplicate-free
member lists. -/
structure ConnectionManager where
  connections : List (String × List Subscriber)
  deriving DecidableEq, Repr

/-- The snapshot `self._connections.get(channel, set()).copy()`. -/
def ConnectionManager.channelSubs (m : ConnectionManager) (ch : String) : List Subscriber :=
  ((m.connections.find? (fun p => p.1 == ch)).map (·.2)).getD []

/-- Python set `discard`: remove the member when present. -/
def discardSub (l : List Subscriber) (w : Subscriber) : List Subscriber :=
  l.filter (fun x => x ≠ w)

/-- Replace the member set of one channel, leaving other channels alone. -/
def setChannel (conns : List (String × List Subscriber)) (ch : String)
    (l : List Subscriber) : List (String × List Subscriber) :=
  conns.map (fun p => if p.1 == ch then (p.1, l) else p)

/-- The `ConnectionManager.broadcast_bytes` method.  Returns the list of
subscribers the payload was delivered to and the hub state after the pass:
delivery succeeds exactly for the members whose send does not raise, and
each member whose send raised is discarded afterwards. -/
def ConnectionManager.broadcast_bytes (m : ConnectionManager) (ch : String) :
    List Subscriber × ConnectionManager :=
  let subs := m.channelSubs ch
  let delivered := subs.filter (fun s => !s.fails)
  let dead := subs.filter (fun s => s.fails)
  let conns :=
    if (m.connections.find? (fun p => p.1 == ch)).isSome then
      setChannel m.connections ch (dead.foldl discardSub subs)
    else m.connections
  (delivered, ⟨conns⟩)

/-! ### Detection worker — yolo_worker.py -/

/-- The `EventType` enumeration from app/models/event.py. -/
inductive EventType
  | person
  | vehicle
  | animal
  | face_known
  | face_unknown
  | motion
  | package
  | custom
  deriving DecidableEq, Repr

/-- The string value of each `EventType` member. -/
def EventType.val : EventType → String
  | person => "person"
  | vehicle => "vehicle"
  | animal => "animal"
  | face_known => "face_known"
  | face_unknown => "face_unknown"
  | motion => "motion"
  | package => "package"
  | custom => "custom"

/-- The vehicle class-name set of `_map_class_to_event_type`. -/
def vehicleClasses : List String := ["car", "motorcycle", "bus", "train", "truck"]

/-- The animal class-name set of `_map_class_to_event_type`. -/
def animalClasses : List String :=
  ["bird", "cat", "dog", "horse", "sheep", "cow", "elephant", "bear", "zebra", "giraffe"]

/-- The `DetectionWorker._map_class_to_event_type` method. -/
def map_class_to_event_type (yolo_class : String) : EventType :=
  if yolo_class = "person" then EventType.person
  else if yolo_class ∈ vehicleClasses then EventType.vehicle
  else if yolo_class ∈ animalClasses then EventType.animal
  else EventType.custom

/-- The `BoundingBox` model (x, y, width, height in pixels). -/
structure BoundingBox where
  x : Int
  y : Int
  w : Int
  h : Int
  deriving DecidableEq, Repr

/-- One raw YOLO box as unpacked in `_process_results`: class name, float
confidence and the corner coordinates already truncated to integers. -/
structure YoloBox where
  class_name : String
  conf : ℚ
  x1 : Int
  y1 : Int
  x2 : Int
  y2 : Int
  deriving DecidableEq, Repr

/-- The `DetectedObject` record appended for each surviving box. -/
structure DetectedObject where
  class_name : String
  confidence : ℚ
  bbox : BoundingBox
  deriving DecidableEq, Repr

/-- The `CooldownTracker` dataclass: `last_event_time`, a map from class
name to the time of the last trigger for it. -/
structure CooldownTracker where
  last_event_time : List (String × ℚ)
  deriving DecidableEq, Repr

/-- Dictionary read `self.last_event_time.get(class_name, 0.0)`. -/
def CooldownTracker.lastTime (t : CooldownTracker) (k : String) : ℚ :=
  ((t.last_event_time.find? (fun p => p.1 == k)).map (·.2)).getD 0

/-- Dictionary assignment: overwrite the binding when the key is present,
append it otherwise. -/
def assocSet (l : List (String × ℚ)) (k : String) (v : ℚ) : List (String × ℚ) :=
  if (l.find? (fun p => p.1 == k)).isSome then
    l.map (fun p => if p.1 == k then (p.1, v) else p)
  else l ++ [(k, v)]

/-- The `CooldownTracker.can_trigger` method at current time `now`: allowed
exactly when at least `cooldown_secs` have elapsed since the last trigger
for the class, in which case the trigger time is recorded. -/
def CooldownTracker.can_trigger (t : CooldownTracker) (class_name : String)
    (cooldown_secs now : ℚ) : Bool × CooldownTracker :=
  let last := t.lastTime class_name
  if cooldown_secs ≤ now - last then
    (true, ⟨assocSet t.last_event_time class_name now⟩)
  else (false, t)

/-- The camera's `detection_config` fields read by `_process_results`
(defaults `["person", "vehicle", "animal"]` and `0.5`). -/
structure CamConfig where
  detection_classes : List String
  confidence_threshold : ℚ
  deriving DecidableEq, Repr

/-- The camera document fields used by the worker. -/
structure Camera where
  id : String
  config : CamConfig
  deriving DecidableEq, Repr

/-- Accumulator of the box-parsing loop in `_process_results`. -/
structure ScanState where
  objs : List DetectedObject
  highest_conf : ℚ
  highest_class : Option EventType
  primary_bbox : Option BoundingBox
  deriving DecidableEq, Repr

/-- One iteration of the box loop: map the class, drop the box when its
mapped category is not enabled or its confidence is below the threshold
(strictly — equality is accepted), record it, and promote it to primary
when its confidence strictly exceeds the best so far. -/
def scanStep (cfg : CamConfig) (st : ScanState) (b : YoloBox) : ScanState :=
  let mapped := map_class_to_event_type b.class_name
  if (map_class_to_event_type b.class_name).val ∉ cfg.detection_classes then st
  else if b.conf < cfg.confidence_threshold then st
  else
    let bbox : BoundingBox := ⟨b.x1, b.y1, b.x2 - b.x1, b.y2 - b.y1⟩
    let st1 : ScanState := { st with objs := st.objs ++ [⟨b.class_name, b.conf, bbox⟩] }
    if st1.highest_conf < b.conf then
      { st1 with highest_conf := b.conf, highest_class := some mapped,
                 primary_bbox := some bbox }
    else st1

/-- The whole box-parsing loop, starting from the empty accumulator
(`detected_objs = []`, `highest_conf = 0.0`, both primaries `None`). -/
def scanBoxes (cfg : CamConfig) (boxes : List YoloBox) : ScanState :=
  boxes.foldl (scanStep cfg) ⟨[], 0, none, none⟩

/-- Outcome of the external identity capabilities for one event: whether
`face_engine.extract_embedding` raises, returns no face, or returns an
embedding; the id `face_engine.match_face` finds for that embedding, if
any; and the id minted by the faces-collection insert on the no-match
branch. -/
structure FaceCtx where
  embed : Except Unit (Option Nat)
  matchId : Option String
  newFaceId : String
  deriving Repr

/-- Length of the Python slice `[a:b]` of an axis of extent `n`, for the
already-clamped nonnegative bounds produced in `_process_results`. -/
def sliceLen (n a b : Int) : Int := max 0 (min b n - min a n)

/-- The event record assembled by `_create_event` (the fields the claims
observe).  The source passes `highest_conf_class` and `primary_bbox`
through unchanged, so both are optional. -/
structure EventDoc where
  camera_id : String
  event_type : Option EventType
  confidence : ℚ
  bounding_box : Option BoundingBox
  detected_objects : List DetectedObject
  face_id : Option String
  deriving DecidableEq, Repr

/-- The event record `_process_results` assembles when the identity
sub-step contributes nothing: the pre-match category, the primary
confidence and box, the surviving detections, and no face linkage. -/
def baseEvent (cam : Camera) (st : ScanState) : EventDoc :=
  { camera_id := cam.id, event_type := st.highest_class,
    confidence := st.highest_conf, bounding_box := st.primary_bbox,
    detected_objects := st.objs, face_id := none }

/-- Whether the crop `frame[cy1:cy2, cx1:cx2]` of the primary region padded
by 20 percent (clamped to the frame bounds) is non-empty, which gates the
face-recognition block (`crop.size > 0`). -/
def cropNonempty (frameRows frameCols : Int) (bbox : BoundingBox) : Prop :=
  let pad_w : Int := (bbox.w * 2).tdiv 10
  let pad_h : Int := (bbox.h * 2).tdiv 10
  let cy1 := max 0 (bbox.y - pad_h)
  let cy2 := min frameRows (bbox.y + bbox.h + pad_h)
  let cx1 := max 0 (bbox.x - pad_w)
  let cx2 := min frameCols (bbox.x + bbox.w + pad_w)
  0 < sliceLen frameRows cy1 cy2 ∧ 0 < sliceLen frameCols cx1 cx2

instance (r c : Int) (b : BoundingBox) : Decidable (cropNonempty r c b) :=
  And.decidable

/-- The face-recognition block of `_process_results`, entered when the
primary detection is a person with a crop to work on: extract an embedding
(an exception here escapes the whole method), and on success recategorize
to a known or unknown identity; an absent embedding leaves the event as
assembled before the block. -/
def personFaceStep (ctx : FaceCtx) (cam : Camera) (st : ScanState)
    (tracker : CooldownTracker) : Except Unit (Option EventDoc × CooldownTracker) :=
  match ctx.embed with
  | Except.error () => Except.error ()
  | Except.ok none => Except.ok (some (baseEvent cam st), tracker)
  | Except.ok (some _) =>
      match ctx.matchId with
      | some mid =>
          Except.ok (some { baseEvent cam st with
            event_type := some EventType.face_known, face_id := some mid }, tracker)
      | none =>
          Except.ok (some { baseEvent cam st with
            event_type := some EventType.face_unknown,
            face_id := some ctx.newFaceId }, tracker)

/-- Dispatch to the face block exactly when `_process_results` does:
primary class is person, a primary box exists, and the padded crop is
non-empty; on every other path the event goes out as assembled. -/
def facePipeline (ctx : FaceCtx) (frameRows frameCols : Int) (cam : Camera)
    (st : ScanState) (tracker : CooldownTracker) :
    Except Unit (Option EventDoc × CooldownTracker) :=
  match st.highest_class, st.primary_bbox with
  | some EventType.person, some bbox =>
      if cropNonempty frameRows frameCols bbox then
        personFaceStep ctx cam st tracker
      else Except.ok (some (baseEvent cam st), tracker)
  | _, _ => Except.ok (some (baseEvent cam st), tracker)

/-- The `DetectionWorker._process_results` method for one camera, frame and
YOLO result.  `frameRows` and `frameCols` are `frame.shape[0]` and
`frame.shape[1]`.  Returns `Except.error ()` when an exception escapes the
method (the embedder raising is the only modelled source), otherwise the
optional event handed to `_create_event` paired with the camera's cooldown
tracker as the method leaves it.  The tracker is fetched but `can_trigger`
is never invoked, so the tracker is returned unchanged on every path. -/
def process_results (cam : Camera) (frameRows frameCols : Int) (ctx : FaceCtx)
    (tracker : CooldownTracker) (boxes : List YoloBox) :
    Except Unit (Option EventDoc × CooldownTracker) :=
  if boxes = [] then Except.ok (none, tracker)
  else if (scanBoxes cam.config boxes).objs = [] then Except.ok (none, tracker)
  else facePipeline ctx frameRows frameCols cam (scanBoxes cam.config boxes) tracker

/-- The worker's per-camera cooldown map `self.cooldowns`. -/
structure WorkerCooldowns where
  cooldowns : List (String × CooldownTracker)
  deriving DecidableEq, Repr

/-- The tracker-fetch prologue of `_process_results`: insert a fresh
`CooldownTracker()` when the camera has none yet, then read it. -/
def WorkerCooldowns.getTracker (w : WorkerCooldowns) (cid : String) :
    CooldownTracker × WorkerCooldowns :=
  match (w.cooldowns.find? (fun p => p.1 == cid)).map (·.2) with
  | some t => (t, w)
  | none => (⟨[]⟩, ⟨w.cooldowns ++ [(cid, ⟨[]⟩)]⟩)

/-- Store the tracker state a `_process_results` call leaves behind. -/
def WorkerCooldowns.putTracker (w : WorkerCooldowns) (cid : String)
    (t : CooldownTracker) : WorkerCooldowns :=
  ⟨w.cooldowns.map (fun p => if p.1 == cid then (p.1, t) else p)⟩

/-- Run `_process_results` once through the worker, threading the cooldown
map, and report the event created (if any). -/
def workerProcessOnce (w : WorkerCooldowns) (cam : Camera)
    (frameRows frameCols : Int) (ctx : FaceCtx) (boxes : List YoloBox) :
    Except Unit (Option EventDoc × WorkerCooldowns) :=
  let (t, w1) := w.getTracker cam.id
  match process_results cam frameRows frameCols ctx t boxes with
  | Except.error () => Except.error ()
  | Except.ok (ev, t1) => Except.ok (ev, w1.putTracker cam.id t1)

/-! ### Bridge receiver dispatch — deepstream/receiver.py

On a decoded message, `_recv_loop` publishes frame payloads to the hub and,
for a detection payload with a non-empty list, spawns `_handle_detections`,
whose body is one attribute call `detection_worker.handle_deepstream_event(...)`
inside a try/except that logs any exception. -/

/-- The method names the `DetectionWorker` class body defines
(yolo_worker.py, lines 76-341). -/
def detectionWorkerMethods : List String :=
  ["__init__", "start", "stop", "_run_loop", "_process_active_cameras",
   "_process_results", "_map_class_to_event_type", "_create_event"]

/-- One decoded bridge message (the fields `_recv_loop` reads). -/
structure BridgeMsg where
  type : String
  camera_id : String
  detections : List YoloBox
  jpeg : Option Bytes
  timestamp : ℚ
  deriving Repr

/-- Observable outcome of handling one bridge message. -/
inductive HandleResult
  | framePublished (channel : String) (payload : Bytes)
  | pipelineInvoked (cameraId : String) (dets : List YoloBox)
  | errorLogged
  | ignored
  deriving Repr

/-- The body of `DeepStreamReceiver._handle_detections`: an attribute call
on the worker object resolved against the methods its class defines; a
missing attribute raises `AttributeError`, which the surrounding
try/except logs. -/
def handle_detections (methods : List String) (cameraId : String)
    (dets : List YoloBox) : HandleResult :=
  if "handle_deepstream_event" ∈ methods then
    HandleResult.pipelineInvoked cameraId dets
  else HandleResult.errorLogged

/-- The per-message dispatch of `DeepStreamReceiver._recv_loop`. -/
def recvDispatch (methods : List String) (msg : BridgeMsg) : HandleResult :=
  if msg.type = "frame" then
    match msg.jpeg with
    | some payload =>
        HandleResult.framePublished (String.append "camera:" msg.camera_id) payload
    | none => HandleResult.ignored
  else if msg.type = "detection" then
    if msg.detections ≠ [] then
      handle_detections methods msg.camera_id msg.detections
    else HandleResult.ignored
  else HandleResult.ignored

/-! ### Module-level name resolution of yolo_worker.py

Python executes a module's top-level statements in order against a namespace
seeded with the builtins; a class statement first evaluates its decorator
expressions, then the names referenced while executing the class body, and
raises `NameError` at the first unbound name. -/

/-- A top-level Python statement, reduced to its name-binding behaviour:
an import or assignment binding some names, or a class definition with its
decorator expressions and the module-level names its body evaluation
references. -/
inductive PyStmt
  | bind (names : List String)
  | classDef (name : String) (decorators : List String) (bodyRefs : List String)
  deriving Repr

/-- Execute the statements against an environment of bound names, stopping
with the first unbound name a class statement needs (the `NameError`). -/
def evalStmts : List String → List PyStmt → Except String (List String)
  | env, [] => Except.ok env
  | env, PyStmt.bind ns :: rest => evalStmts (env ++ ns) rest
  | env, PyStmt.classDef n decs refs :: rest =>
      match (decs ++ refs).find? (fun r => decide (r ∉ env)) with
      | some r => Except.error r
      | none => evalStmts (env ++ [n]) rest

/-- All names the module's statements would bind if execution completed. -/
def moduleBindings : List PyStmt → List String
  | [] => []
  | PyStmt.bind ns :: rest => ns ++ moduleBindings rest
  | PyStmt.classDef n _ _ :: rest => n :: moduleBindings rest

/-- The top-level statements of app/workers/yolo_worker.py in source order:
the import block (lines 8-28), the `logger` assignment, the three class
statements and the `detection_worker` singleton assignment.  The
`CooldownTracker` statement carries its `dataclass` decorator and the class
body's references to `Dict` and `field`. -/
def yoloWorkerModule : List PyStmt :=
  [PyStmt.bind ["asyncio"], PyStmt.bind ["logging"], PyStmt.bind ["time"],
   PyStmt.bind ["os"], PyStmt.bind ["uuid"],
   PyStmt.bind ["datetime", "timezone"], PyStmt.bind ["Dict", "Optional"],
   PyStmt.bind ["ObjectId"], PyStmt.bind ["cv2"], PyStmt.bind ["np"],
   PyStmt.bind ["YOLO"], PyStmt.bind ["settings"], PyStmt.bind ["stream_manager"],
   PyStmt.bind ["EventType", "EventCreate", "BoundingBox", "DetectedObject"],
   PyStmt.bind ["llm_service"], PyStmt.bind ["notification_service"],
   PyStmt.bind ["logger"],
   PyStmt.classDef "YOLOEngine" [] ["np"],
   PyStmt.classDef "CooldownTracker" ["dataclass"] ["Dict", "field"],
   PyStmt.classDef "DetectionWorker" [] ["Optional", "Dict"],
   PyStmt.bind ["detection_worker"]]

/-! ### Concrete scenario data used by witnesses and counterexamples -/

/-- The rational `1/2`, written in lowest terms so that kernel evaluation
of comparisons on it never needs normalization. -/
def ratHalf : ℚ := Rat.mk' 1 2 (by norm_num) (by norm_num [Nat.Coprime])

/-- The rational `4/5` (confidence 0.8) in lowest terms. -/
def ratFourFifths : ℚ := Rat.mk' 4 5 (by norm_num) (by norm_num [Nat.Coprime])

/-- The rational `9/10` (confidence 0.9) in lowest terms. -/
def ratNineTenths : ℚ := Rat.mk' 9 10 (by norm_num) (by norm_num [Nat.Coprime])

/-- A camera with detection class `person` enabled and threshold `0.5`. -/
def demoCam : Camera := ⟨"cam1", ⟨["person"], ratHalf⟩⟩

/-- A person detection at confidence `0.8`. -/
def demoPersonBox : YoloBox := ⟨"person", ratFourFifths, 100, 100, 200, 300⟩

/-- A person detection at confidence `0.9`. -/
def demoPersonBox2 : YoloBox := ⟨"person", ratNineTenths, 100, 100, 200, 300⟩

/-- Identity capabilities where the embedder finds no face. -/
def faceCtxNone : FaceCtx := ⟨Except.ok none, none, "face-1"⟩

/-- Identity capabilities where the embedder raises. -/
def faceCtxThrow : FaceCtx := ⟨Except.error (), none, "face-1"⟩

/-- Two consecutive detection results for the same camera and category fed
through the worker, threading its cooldown state: the events handed to
`_create_event` by each call, and the final cooldown map. -/
def detectionsAtTwoTimes :
    Except Unit ((Option EventDoc × Option EventDoc) × WorkerCooldowns) :=
  match workerProcessOnce ⟨[]⟩ demoCam 480 640 faceCtxNone [demoPersonBox] with
  | Except.error () => Except.error ()
  | Except.ok (ev1, w1) =>
      match workerProcessOnce w1 demoCam 480 640 faceCtxNone [demoPersonBox2] with
      | Except.error () => Except.error ()
      | Except.ok (ev2, w2) => Except.ok ((ev1, ev2), w2)

/-- A decoded bridge message of type detection with one person box. -/
def demoDetectionMsg : BridgeMsg := ⟨"detection", "cam1", [demoPersonBox], none, 0⟩

end VisionPro

/-! ## Theorems -/

namespace VisionPro

theorem nextBackoff_backoffAt (k : Nat) : nextBackoff (backoffAt k) = backoffAt (k + 1) := by
  unfold nextBackoff backoffAt
  rcases le_or_lt (2 ^ (k + 1)) 30 with h | h
  · rw [min_eq_left h]
    ring_nf
  · rw [min_eq_right (le_of_lt h)]
    have h2 : (30 : Nat) ≤ 2 ^ (k + 1 + 1) := by
      calc (30 : Nat) ≤ 2 ^ (k + 1) := le_of_lt h
      _ ≤ 2 ^ (k + 1 + 1) := Nat.pow_le_pow_right (by norm_num) (by omega)
    omega

theorem runLoopDelays_replicate_fail (n k : Nat) :
    runLoopDelays (backoffAt k) (List.replicate n ConnectOutcome.fail)
      = (List.range n).map (fun i => backoffAt (i + k)) := by
  induction n generalizing k with
  | zero => simp [runLoopDelays]
  | succ m ih =>
      rw [List.replicate_succ, List.range_succ_eq_map]
      simp only [runLoopDelays, List.map_cons, nextBackoff_backoffAt, ih (k + 1),
        List.map_map]
      refine List.cons_eq_cons.mpr ⟨by simp, ?_⟩
      apply List.map_congr_left
      intro i _
      simp only [Function.comp_apply]
      congr 1
      omega

theorem backoffAt_le_succ (k : Nat) : backoffAt k ≤ backoffAt (k + 1) := by
  unfold backoffAt
  have : (2 : Nat) ^ (k + 1) ≤ 2 ^ (k + 1 + 1) :=
    Nat.pow_le_pow_right (by norm_num) (by omega)
  omega

theorem backoffAt_of_four_le (k : Nat) (h : 4 ≤ k) : backoffAt k = 30 := by
  unfold backoffAt
  have : (32 : Nat) ≤ 2 ^ (k + 1) := by
    calc (32 : Nat) = 2 ^ 5 := by norm_num
    _ ≤ 2 ^ (k + 1) := Nat.pow_le_pow_right (by norm_num) (by omega)
  omega

/-- C3: for a supervisor whose connect attempt fails repeatedly, the sleep
delays follow the closed form `min (2 ^ (i + 1)) 30`; in particular the
first five delays are exactly 2, 4, 8, 16, 30 seconds, every delay from the
fifth on is 30 seconds, and the sequence is monotonically non-decreasing. -/
theorem backoff_delays_double_and_cap (n : Nat) :
    runLoopDelays initialBackoff (List.replicate n ConnectOutcome.fail)
      = (List.range n).map (fun i => min (2 ^ (i + 1)) 30)
    ∧ runLoopDelays initialBackoff (List.replicate 5 ConnectOutcome.fail)
      = [2, 4, 8, 16, 30]
    ∧ (∀ i : Nat, i < n → 4 ≤ i →
        (runLoopDelays initialBackoff (List.replicate n ConnectOutcome.fail)).getD i 0 = 30)
    ∧ List.Chain' (fun a b => a ≤ b)
        (runLoopDelays initialBackoff (List.replicate n ConnectOutcome.fail)) := by
  have hinit : initialBackoff = backoffAt 0 := by decide
  have hform : runLoopDelays initialBackoff (List.replicate n ConnectOutcome.fail)
      = (List.range n).map (fun i => backoffAt i) := by
    rw [hinit, runLoopDelays_replicate_fail]
    simp
  refine ⟨?_, by decide, ?_, ?_⟩
  · rw [hform]
    apply List.map_congr_left
    intro i _
    simp [backoffAt]
  · intro i hi h4
    rw [hform]
    rw [List.getD_eq_getElem?_getD]
    rw [List.getElem?_map]
    rw [List.getElem?_range hi]
    simp [backoffAt_of_four_le i h4]
  · rw [hform]
    rw [List.chain'_iff_get]
    intro i hi
    simp only [List.length_map, List.length_range] at hi
    rw [List.get_map, List.get_map]
    simp only [List.get_range]
    exact backoffAt_le_succ i

/-- Witness for C3 at seven consecutive failures: the delays are
2, 4, 8, 16, 30, 30, 30 and the sixth delay is 30. -/
theorem backoff_delays_double_and_cap_witness :
    runLoopDelays initialBackoff (List.replicate 7 ConnectOutcome.fail)
      = [2, 4, 8, 16, 30, 30, 30]
    ∧ (runLoopDelays initialBackoff (List.replicate 7 ConnectOutcome.fail)).getD 5 0 = 30 :=
  ⟨((backoff_delays_double_and_cap 7).1).trans (by decide),
   (backoff_delays_double_and_cap 7).2.2.1 5 (by decide) (by decide)⟩

theorem runLoopDelays_append_ok_fail (tr : List ConnectOutcome) (b : Nat) :
    runLoopDelays b (tr ++ [ConnectOutcome.ok, ConnectOutcome.fail])
      = runLoopDelays b tr ++ [initialBackoff] := by
  induction tr generalizing b with
  | nil => rfl
  | cons hd tl ih => cases hd <;> simp [runLoopDelays, ih]

/-- C4: after any successful connect, the backoff is reset to the initial
2 seconds, so whatever the earlier history (in particular after `N`
consecutive failures that drove the backoff to the 30-second cap), the next
failure sleeps exactly 2 seconds. -/
theorem backoff_resets_after_success (b N : Nat) (tr : List ConnectOutcome) :
    runLoopDelays b (tr ++ [ConnectOutcome.ok, ConnectOutcome.fail])
      = runLoopDelays b tr ++ [2]
    ∧ runLoopDelays initialBackoff
        (List.replicate N ConnectOutcome.fail ++ [ConnectOutcome.ok, ConnectOutcome.fail])
      = (List.range N).map (fun i => min (2 ^ (i + 1)) 30) ++ [2] := by
  constructor
  · exact runLoopDelays_append_ok_fail tr b
  · rw [runLoopDelays_append_ok_fail]
    have hinit : initialBackoff = backoffAt 0 := by decide
    rw [hinit, runLoopDelays_replicate_fail]
    simp [backoffAt, initialBackoff]

theorem lookup_none_key_not_mem (m : StreamManager) (cid : String)
    (h : m.lookup cid = none) : cid ∉ m.streams.map Prod.fst := by
  intro hmem
  rcases List.mem_map.mp hmem with ⟨p, hp, hfst⟩
  have hfind : m.streams.find? (fun q => q.1 == cid) = none := by
    unfold StreamManager.lookup at h
    exact Option.map_eq_none'.mp h
  have := List.find?_eq_none.mp hfind p hp
  simp only [beq_iff_eq] at this
  exact this hfst

/-- C5: at most one supervisor per camera id.  Calling `start_stream` for an
id already in the registry returns the existing supervisor and leaves the
registry untouched; calling `start` on a supervisor that is already running
changes nothing; and `start_stream` preserves distinctness of the registry
keys, so it never indexes a second supervisor under the same id. -/
theorem start_stream_idempotent_unique (m : StreamManager) (cid url : String)
    (fps : Nat) (s : CameraStream)
    (hpresent : m.lookup cid = some s) (hrun : s.running = true) :
    m.start_stream cid url fps = (s, m)
    ∧ s.start = s
    ∧ ∀ m2 : StreamManager, m2.keysNodup → ((m2.start_stream cid url fps).2).keysNodup := by
  refine ⟨?_, ?_, ?_⟩
  · unfold StreamManager.start_stream
    rw [hpresent]
  · unfold CameraStream.start
    rw [hrun]
    simp
  · intro m2 h2
    unfold StreamManager.start_stream
    cases hcase : m2.lookup cid with
    | some t => exact h2
    | none =>
        unfold StreamManager.keysNodup at h2 ⊢
        simp only [List.map_append, List.map_cons, List.map_nil]
        rw [List.nodup_append]
        refine ⟨h2, List.nodup_singleton _, ?_⟩
        intro a ha hb
        simp only [List.mem_singleton] at hb
        rw [hb] at ha
        exact lookup_none_key_not_mem m2 cid hcase ha

/-- Witness for C5: a registry holding one running supervisor for `cam1`. -/
theorem start_stream_idempotent_unique_witness :
    (StreamManager.mk [("cam1", CameraStream.start (CameraStream.mkNew "cam1" "rtsp://x" 15))]).start_stream
        "cam1" "rtsp://y" 20
      = (CameraStream.start (CameraStream.mkNew "cam1" "rtsp://x" 15),
         StreamManager.mk [("cam1", CameraStream.start (CameraStream.mkNew "cam1" "rtsp://x" 15))])
    ∧ (CameraStream.start (CameraStream.mkNew "cam1" "rtsp://x" 15)).start
      = CameraStream.start (CameraStream.mkNew "cam1" "rtsp://x" 15) :=
  ⟨(start_stream_idempotent_unique
      (StreamManager.mk [("cam1", CameraStream.start (CameraStream.mkNew "cam1" "rtsp://x" 15))])
      "cam1" "rtsp://y" 20 (CameraStream.start (CameraStream.mkNew "cam1" "rtsp://x" 15))
      (by decide) (by decide)).1,
   (start_stream_idempotent_unique
      (StreamManager.mk [("cam1", CameraStream.start (CameraStream.mkNew "cam1" "rtsp://x" 15))])
      "cam1" "rtsp://y" 20 (CameraStream.start (CameraStream.mkNew "cam1" "rtsp://x" 15))
      (by decide) (by decide)).2.1⟩

theorem nodup_all_eq_singleton {l : List Subscriber} {w : Subscriber}
    (hnodup : l.Nodup) (hw : w ∈ l) (hall : ∀ x ∈ l, x = w) : l = [w] := by
  cases l with
  | nil => cases hw
  | cons a t =>
      have ha : a = w := hall a (List.mem_cons_self a t)
      subst ha
      have ht : t = [] := by
        cases t with
        | nil => rfl
        | cons b t2 =>
            have hb : b = a := hall b (by simp)
            subst hb
            exact absurd (List.mem_cons_self b t2) (List.nodup_cons.mp hnodup).1
      rw [ht]

theorem filter_fails_eq_singleton {subs : List Subscriber} {w : Subscriber}
    (hnodup : subs.Nodup) (hw : w ∈ subs) (hwf : w.fails = true)
    (hothers : ∀ x ∈ subs, x ≠ w → x.fails = false) :
    subs.filter (fun s => s.fails) = [w] := by
  apply nodup_all_eq_singleton (hnodup.filter _)
  · exact List.mem_filter.mpr ⟨hw, hwf⟩
  · intro x hx
    rcases List.mem_filter.mp hx with ⟨hxm, hxf⟩
    by_contra hne
    rw [hothers x hxm hne] at hxf
    cases hxf

theorem filter_length_split (l : List Subscriber) :
    (l.filter (fun s => !s.fails)).length + (l.filter (fun s => s.fails)).length
      = l.length := by
  induction l with
  | nil => rfl
  | cons a t ih =>
      cases h : a.fails with
      | true =>
          simp [List.filter_cons, h]
          omega
      | false =>
          simp [List.filter_cons, h]
          omega

theorem find?_setChannel (conns : List (String × List Subscriber)) (ch : String)
    (l : List Subscriber) :
    (setChannel conns ch l).find? (fun p => p.1 == ch)
      = (conns.find? (fun p => p.1 == ch)).map (fun p => (p.1, l)) := by
  induction conns with
  | nil => rfl
  | cons hd tl ih =>
      by_cases h : hd.1 = ch
      · have hb : (hd.1 == ch) = true := beq_iff_eq.mpr h
        have hstep : setChannel (hd :: tl) ch l = (hd.1, l) :: setChannel tl ch l := by
          show List.map _ (hd :: tl) = _
          rw [List.map_cons]
          refine List.cons_eq_cons.mpr ⟨?_, rfl⟩
          show (if hd.1 == ch then (hd.1, l) else hd) = (hd.1, l)
          simp [hb]
        rw [hstep]
        rw [List.find?_cons_of_pos (setChannel tl ch l)
          (show ((hd.1, l).1 == ch) = true by simpa using hb)]
        rw [List.find?_cons_of_pos tl hb]
        rfl
      · have hb : (hd.1 == ch) = false := beq_eq_false_iff_ne.mpr h
        have hstep : setChannel (hd :: tl) ch l = hd :: setChannel tl ch l := by
          show List.map _ (hd :: tl) = _
          rw [List.map_cons]
          refine List.cons_eq_cons.mpr ⟨?_, rfl⟩
          show (if hd.1 == ch then (hd.1, l) else hd) = hd
          simp [hb]
        rw [hstep]
        rw [List.find?_cons_of_neg (setChannel tl ch l)
          (show ¬((hd.1 == ch) = true) by simp [hb])]
        rw [List.find?_cons_of_neg tl (show ¬((hd.1 == ch) = true) by simp [hb])]
        exact ih

/-- C6: a publish to a channel where exactly one subscriber's delivery
fails still delivers to every other subscriber (N - 1 of N), and the
failing subscriber is pruned after the pass: it is absent from the channel
a subsequent publish would snapshot, while every other subscriber is still
there. -/
theorem broadcast_failure_isolated_and_pruned (m : ConnectionManager)
    (ch : String) (subs : List Subscriber) (w : Subscriber)
    (hsubs : m.channelSubs ch = subs) (hnodup : subs.Nodup) (hw : w ∈ subs)
    (hwf : w.fails = true) (hothers : ∀ x ∈ subs, x ≠ w → x.fails = false) :
    (m.broadcast_bytes ch).1 = subs.filter (fun s => !s.fails)
    ∧ w ∉ (m.broadcast_bytes ch).1
    ∧ (∀ x ∈ subs, x ≠ w → x ∈ (m.broadcast_bytes ch).1)
    ∧ (m.broadcast_bytes ch).1.length + 1 = subs.length
    ∧ (m.broadcast_bytes ch).2.channelSubs ch = subs.filter (fun s => !s.fails)
    ∧ w ∉ (m.broadcast_bytes ch).2.channelSubs ch
    ∧ (∀ x ∈ subs, x ≠ w → x ∈ (m.broadcast_bytes ch).2.channelSubs ch) := by
  have hdead : subs.filter (fun s => s.fails) = [w] :=
    filter_fails_eq_singleton hnodup hw hwf hothers
  have hdeliver : (m.broadcast_bytes ch).1 = subs.filter (fun s => !s.fails) := by
    unfold ConnectionManager.broadcast_bytes
    rw [hsubs]
  have hmem_deliver : ∀ x ∈ subs, x ≠ w → x ∈ (m.broadcast_bytes ch).1 := by
    intro x hx hne
    rw [hdeliver]
    exact List.mem_filter.mpr ⟨hx, by rw [hothers x hx hne]; rfl⟩
  have hw_not : w ∉ (m.broadcast_bytes ch).1 := by
    rw [hdeliver]
    intro hmem
    have := (List.mem_filter.mp hmem).2
    rw [hwf] at this
    cases this
  have hfind : ∃ pr, m.connections.find? (fun p => p.1 == ch) = some pr ∧ pr.2 = subs := by
    cases hf : m.connections.find? (fun p => p.1 == ch) with
    | none =>
        exfalso
        unfold ConnectionManager.channelSubs at hsubs
        rw [hf] at hsubs
        simp at hsubs
        subst hsubs
        cases hw
    | some pr =>
        refine ⟨pr, rfl, ?_⟩
        unfold ConnectionManager.channelSubs at hsubs
        rw [hf] at hsubs
        simpa using hsubs
  have hfold : (subs.filter (fun s => s.fails)).foldl discardSub subs
      = subs.filter (fun s => !s.fails) := by
    rw [hdead]
    show discardSub subs w = subs.filter (fun s => !s.fails)
    unfold discardSub
    apply List.filter_congr
    intro x hx
    by_cases hxw : x = w
    · subst hxw
      simp [hwf]
    · simp [hxw, hothers x hx hxw]
  have hconns : (m.broadcast_bytes ch).2
      = ⟨setChannel m.connections ch (subs.filter (fun s => !s.fails))⟩ := by
    rcases hfind with ⟨pr, hpr, -⟩
    unfold ConnectionManager.broadcast_bytes
    simp only [hsubs, hpr, Option.isSome_some, if_true, hfold]
  have hafter : (m.broadcast_bytes ch).2.channelSubs ch
      = subs.filter (fun s => !s.fails) := by
    rcases hfind with ⟨pr, hpr, -⟩
    rw [hconns]
    unfold ConnectionManager.channelSubs
    rw [find?_setChannel, hpr]
    rfl
  refine ⟨hdeliver, hw_not, hmem_deliver, ?_, hafter, ?_, ?_⟩
  · have hlen := filter_length_split subs
    rw [hdead] at hlen
    rw [hdeliver]
    simp only [List.length_cons, List.length_nil] at hlen
    omega
  · rw [hafter]
    intro hmem
    have := (List.mem_filter.mp hmem).2
    rw [hwf] at this
    cases this
  · intro x hx hne
    rw [hafter]
    exact List.mem_filter.mpr ⟨hx, by rw [hothers x hx hne]; rfl⟩

/-- Witness for C6: three subscribers on one channel, the second failing:
the payload reaches subscribers 1 and 3 and subscriber 2 is gone from the
channel afterwards. -/
theorem broadcast_failure_isolated_and_pruned_witness :
    ((ConnectionManager.mk
        [("camera:cam1", [⟨1, false⟩, ⟨2, true⟩, ⟨3, false⟩])]).broadcast_bytes
        "camera:cam1").1 = [⟨1, false⟩, ⟨3, false⟩]
    ∧ Subscriber.mk 2 true ∉
        ((ConnectionManager.mk
          [("camera:cam1", [⟨1, false⟩, ⟨2, true⟩, ⟨3, false⟩])]).broadcast_bytes
          "camera:cam1").2.channelSubs "camera:cam1"
    ∧ Subscriber.mk 1 false ∈
        ((ConnectionManager.mk
          [("camera:cam1", [⟨1, false⟩, ⟨2, true⟩, ⟨3, false⟩])]).broadcast_bytes
          "camera:cam1").2.channelSubs "camera:cam1" := by
  have h := broadcast_failure_isolated_and_pruned
    (ConnectionManager.mk [("camera:cam1", [⟨1, false⟩, ⟨2, true⟩, ⟨3, false⟩])])
    "camera:cam1" [⟨1, false⟩, ⟨2, true⟩, ⟨3, false⟩] ⟨2, true⟩
    rfl (by decide) (by decide) rfl (by decide)
  exact ⟨h.1.trans (by decide), h.2.2.2.2.2.1,
    h.2.2.2.2.2.2 ⟨1, false⟩ (by decide) (by decide)⟩

/-- C7 counterexample: when the embedder raises, `_process_results` has no
exception handler around the face block, so the exception escapes the
method and no event is created at all — refuting the claim that an event
is still created when the embedder throws. -/
theorem embedder_throw_aborts_event :
    process_results demoCam 480 640 faceCtxThrow ⟨[]⟩ [demoPersonBox]
      = Except.error () := by
  rfl

theorem scanBoxes_nil (cfg : CamConfig) : scanBoxes cfg [] = ⟨[], 0, none, none⟩ := rfl

/-- C7 (amended): when the embedder returns no embedding, the event is
still created, categorized as the pre-match category selected by the
filtering scan, with the pre-match confidence and detection list and no
identity linkage; the method does not raise on this path. -/
theorem embedder_none_still_creates_event (cam : Camera) (rows cols : Int)
    (ctx : FaceCtx) (tracker : CooldownTracker) (boxes : List YoloBox)
    (hembed : ctx.embed = Except.ok none)
    (hobjs : (scanBoxes cam.config boxes).objs ≠ []) :
    ∃ e : EventDoc,
      process_results cam rows cols ctx tracker boxes = Except.ok (some e, tracker)
      ∧ e.face_id = none
      ∧ e.event_type = (scanBoxes cam.config boxes).highest_class
      ∧ e.confidence = (scanBoxes cam.config boxes).highest_conf
      ∧ e.detected_objects = (scanBoxes cam.config boxes).objs := by
  have hboxes : boxes ≠ [] := by
    intro hnil
    rw [hnil, scanBoxes_nil] at hobjs
    exact hobjs rfl
  have hface : facePipeline ctx rows cols cam (scanBoxes cam.config boxes) tracker
      = Except.ok (some (baseEvent cam (scanBoxes cam.config boxes)), tracker) := by
    unfold facePipeline
    split
    · split
      · unfold personFaceStep
        rw [hembed]
      · rfl
    · rfl
  refine ⟨baseEvent cam (scanBoxes cam.config boxes), ?_, rfl, rfl, rfl, rfl⟩
  unfold process_results
  rw [if_neg hboxes, if_neg hobjs, hface]

/-- Witness for C7 (amended): the concrete person detection with the
embedder reporting no face yields an event of the pre-match category
`person` with no face linkage. -/
theorem embedder_none_still_creates_event_witness :
    ∃ e : EventDoc,
      process_results demoCam 480 640 faceCtxNone ⟨[]⟩ [demoPersonBox]
        = Except.ok (some e, ⟨[]⟩)
      ∧ e.face_id = none
      ∧ e.event_type = (scanBoxes demoCam.config [demoPersonBox]).highest_class
      ∧ e.confidence = (scanBoxes demoCam.config [demoPersonBox]).highest_conf
      ∧ e.detected_objects = (scanBoxes demoCam.config [demoPersonBox]).objs :=
  embedder_none_still_creates_event demoCam 480 640 faceCtxNone ⟨[]⟩
    [demoPersonBox] rfl (by decide)

/-- A supervisor that has produced frames and is running. -/
def demoStreamWithFrame : CameraStream :=
  { CameraStream.mkNew "cam1" "rtsp://x" 15 with
      running := true, connected := true,
      latest_frame := some [1, 2, 3], latest_raw := some ⟨480, 640, [7]⟩ }

/-- C8 counterexample: stopping a supervisor does not clear its latest-frame
cache, so after `stop()` both `get_snapshot` and `get_raw_frame` still
return the last produced frame rather than "unavailable". -/
theorem snapshot_after_stop_still_returns_frame :
    demoStreamWithFrame.stop = Except.ok demoStreamWithFrame.stopRun
    ∧ demoStreamWithFrame.stopRun.running = false
    ∧ demoStreamWithFrame.stopRun.get_snapshot = some [1, 2, 3]
    ∧ demoStreamWithFrame.stopRun.get_raw_frame = some ⟨480, 640, [7]⟩
    ∧ demoStreamWithFrame.stopRun.get_snapshot ≠ none := by
  refine ⟨rfl, rfl, rfl, rfl, ?_⟩
  intro h
  cases h

theorem lookup_erase_self (l : List (String × CameraStream)) (cid : String)
    (hnodup : (l.map Prod.fst).Nodup) :
    (StreamManager.mk (l.eraseP (fun p => p.1 == cid))).lookup cid = none := by
  unfold StreamManager.lookup
  rw [Option.map_eq_none']
  induction l with
  | nil => rfl
  | cons a t ih =>
      by_cases ha : a.1 = cid
      · rw [List.eraseP_cons_of_pos (by simpa using ha)]
        rw [List.find?_eq_none]
        intro p hp hpc
        apply (List.nodup_cons.mp hnodup).1
        rw [ha, ← (beq_iff_eq.mp hpc)]
        exact List.mem_map_of_mem Prod.fst hp
      · rw [List.eraseP_cons_of_neg (by simpa using ha)]
        rw [List.find?_cons_of_neg _ (by simpa using ha)]
        exact ih (List.nodup_cons.mp hnodup).2

/-- C8 (amended): the latest-frame reads are lookups of the single-slot
cache and return "unavailable" exactly when no frame has ever been stored;
a supervisor-level stop leaves the cache in place (the last frame is still
returned), while the registry-level `stop_stream` removes the supervisor
from the index, so the registry accessor reports "unavailable" after a
stop. -/
theorem snapshot_unavailable_semantics (s : CameraStream) (m : StreamManager)
    (cid : String) (hnodup : m.keysNodup) :
    (s.latest_frame = none → s.get_snapshot = none)
    ∧ (s.latest_raw = none → s.get_raw_frame = none)
    ∧ s.stopRun.get_snapshot = s.get_snapshot
    ∧ s.stopRun.get_raw_frame = s.get_raw_frame
    ∧ (m.stop_stream cid).1.get_snapshot cid = none := by
  refine ⟨fun h => h, fun h => h, rfl, rfl, ?_⟩
  unfold StreamManager.stop_stream
  cases hl : m.lookup cid with
  | none =>
      unfold StreamManager.get_snapshot
      rw [hl]
  | some t =>
      dsimp only
      cases hstop : t.stop with
      | ok u =>
          dsimp only
          unfold StreamManager.get_snapshot
          rw [lookup_erase_self m.streams cid hnodup]
      | error e =>
          dsimp only
          unfold StreamManager.get_snapshot
          rw [lookup_erase_self m.streams cid hnodup]

/-- Witness for C8 (amended): a one-entry registry; after `stop_stream` the
registry snapshot accessor reports "unavailable", and a fresh supervisor
that never produced a frame reports "unavailable" directly. -/
theorem snapshot_unavailable_semantics_witness :
    ((CameraStream.mkNew "cam2" "rtsp://y" 10).get_snapshot = none)
    ∧ ((StreamManager.mk [("cam1", demoStreamWithFrame)]).stop_stream
        "cam1").1.get_snapshot "cam1" = none := by
  have h := snapshot_unavailable_semantics (CameraStream.mkNew "cam2" "rtsp://y" 10)
    (StreamManager.mk [("cam1", demoStreamWithFrame)]) "cam1"
    (by unfold StreamManager.keysNodup; decide)
  exact ⟨h.1 rfl, h.2.2.2.2⟩

theorem stop_stream_head_ok (a : String × CameraStream)
    (t : List (String × CameraStream)) (h : a.2.stopRaises = false) :
    StreamManager.stop_stream ⟨a :: t⟩ a.1 = (⟨t⟩, none) := by
  have hlook : StreamManager.lookup ⟨a :: t⟩ a.1 = some a.2 := by
    unfold StreamManager.lookup
    rw [List.find?_cons_of_pos t (by simp)]
    rfl
  have hstop : a.2.stop = Except.ok a.2.stopRun := by
    unfold CameraStream.stop
    rw [h]
    rfl
  unfold StreamManager.stop_stream
  rw [hlook]
  dsimp only
  rw [hstop]
  dsimp only
  rw [List.eraseP_cons_of_pos (by simp)]

theorem stop_stream_head_raises (a : String × CameraStream)
    (t : List (String × CameraStream)) (h : a.2.stopRaises = true) :
    StreamManager.stop_stream ⟨a :: t⟩ a.1 = (⟨t⟩, some a.2.camera_id) := by
  have hlook : StreamManager.lookup ⟨a :: t⟩ a.1 = some a.2 := by
    unfold StreamManager.lookup
    rw [List.find?_cons_of_pos t (by simp)]
    rfl
  have hstop : a.2.stop = Except.error a.2.camera_id := by
    unfold CameraStream.stop
    rw [h]
    rfl
  unfold StreamManager.stop_stream
  rw [hlook]
  dsimp only
  rw [hstop]
  dsimp only
  rw [List.eraseP_cons_of_pos (by simp)]

theorem stopAllGo_clean (l : List (String × CameraStream))
    (h : ∀ p ∈ l, p.2.stopRaises = false) :
    stopAllGo ⟨l⟩ (l.map Prod.fst) = (⟨[]⟩, l.map Prod.fst, none) := by
  induction l with
  | nil => rfl
  | cons a t ih =>
      have hlook : StreamManager.lookup ⟨a :: t⟩ a.1 = some a.2 := by
        unfold StreamManager.lookup
        rw [List.find?_cons_of_pos t (by simp)]
        rfl
      show stopAllGo ⟨a :: t⟩ (a.1 :: t.map Prod.fst) = _
      unfold stopAllGo
      rw [stop_stream_head_ok a t (h a (List.mem_cons_self a t))]
      dsimp only
      rw [ih (fun p hp => h p (List.mem_cons_of_mem a hp))]
      rw [hlook]
      rfl

theorem stopAllGo_abort (pre : List (String × CameraStream)) (c : String)
    (s : CameraStream) (post : List (String × CameraStream))
    (hpre : ∀ p ∈ pre, p.2.stopRaises = false) (hs : s.stopRaises = true) :
    stopAllGo ⟨pre ++ (c, s) :: post⟩ ((pre ++ (c, s) :: post).map Prod.fst)
      = (⟨post⟩, pre.map Prod.fst, some s.camera_id) := by
  induction pre with
  | nil =>
      show stopAllGo ⟨(c, s) :: post⟩ (c :: post.map Prod.fst) = _
      unfold stopAllGo
      rw [stop_stream_head_raises (c, s) post hs]
      rfl
  | cons a t ih =>
      have hlook : StreamManager.lookup ⟨a :: (t ++ (c, s) :: post)⟩ a.1 = some a.2 := by
        unfold StreamManager.lookup
        rw [List.find?_cons_of_pos _ (by simp)]
        rfl
      show stopAllGo ⟨a :: (t ++ (c, s) :: post)⟩
          (a.1 :: (t ++ (c, s) :: post).map Prod.fst) = _
      unfold stopAllGo
      rw [stop_stream_head_ok a (t ++ (c, s) :: post)
        (hpre a (List.mem_cons_self a _))]
      dsimp only
      rw [ih (fun p hp => hpre p (List.mem_cons_of_mem a hp))]
      rw [hlook]
      rfl

/-- C9 (amended): `stop_all` iterates the registry in insertion order; when
no stop raises it stops and deregisters every supervisor, but the first
stop that raises aborts the iteration: the raising supervisor has already
been popped from the index, none of the earlier supervisors are affected
retroactively, and every supervisor after it is neither stopped nor
removed — there is no collect-and-continue. -/
theorem stop_all_abort_semantics (pre post : List (String × CameraStream))
    (c : String) (s : CameraStream)
    (hpre : ∀ p ∈ pre, p.2.stopRaises = false) (hs : s.stopRaises = true) :
    (StreamManager.mk (pre ++ (c, s) :: post)).stop_all
      = (⟨post⟩, pre.map Prod.fst, some s.camera_id)
    ∧ ∀ l : List (String × CameraStream), (∀ p ∈ l, p.2.stopRaises = false) →
        (StreamManager.mk l).stop_all = (⟨[]⟩, l.map Prod.fst, none) := by
  constructor
  · unfold StreamManager.stop_all
    exact stopAllGo_abort pre c s post hpre hs
  · intro l hl
    unfold StreamManager.stop_all
    exact stopAllGo_clean l hl

/-- A running supervisor whose stop raises. -/
def demoRaisingStream : CameraStream :=
  { CameraStream.mkNew "a" "rtsp://a" 15 with running := true, stopRaises := true }

/-- A running supervisor whose stop succeeds. -/
def demoHealthyStream : CameraStream :=
  { CameraStream.mkNew "b" "rtsp://b" 15 with running := true }

/-- C9 counterexample: with supervisors `a` (stop raises) and `b` in the
registry, `stop_all` raises out of the loop after `a`: no supervisor is
recorded as stopped, and `b` is still registered and still running — the
claim that every other supervisor is still stopped fails. -/
theorem stop_all_leaves_later_supervisor_running :
    (StreamManager.mk [("a", demoRaisingStream), ("b", demoHealthyStream)]).stop_all
      = (⟨[("b", demoHealthyStream)]⟩, [], some "a")
    ∧ demoHealthyStream.running = true := ⟨rfl, rfl⟩

/-- Witness for C9 (amended): a two-supervisor registry with no raising
stop is emptied with both ids reported stopped; with a raising head, the
loop aborts leaving the tail registered. -/
theorem stop_all_abort_semantics_witness :
    (StreamManager.mk [("a", demoHealthyStream), ("b", demoHealthyStream)]).stop_all
      = (⟨[]⟩, ["a", "b"], none)
    ∧ (StreamManager.mk [("a", demoRaisingStream), ("b", demoHealthyStream)]).stop_all
      = (⟨[("b", demoHealthyStream)]⟩, [], some "a") := by
  have h := stop_all_abort_semantics [] [("b", demoHealthyStream)] "a"
    demoRaisingStream (by intro p hp; cases hp) rfl
  refine ⟨?_, h.1⟩
  exact h.2 [("a", demoHealthyStream), ("b", demoHealthyStream)]
    (by intro p hp; fin_cases hp <;> rfl)

/-- C1: the cooldown gate is never applied by `_process_results` — the
method fetches the camera's tracker but never calls `can_trigger`, so two
surviving detections for the same camera and category both yield events no
matter how close in time, and the tracker's last-trigger map stays empty.
The `CooldownTracker.can_trigger` method itself, had it been called with
window 15 at times 1000 and 1010 = 1000 + 15 - 5, would have admitted the
first trigger and refused the second, admitting a third at 1016. -/
theorem cooldown_gate_never_invoked :
    (∃ e1 e2 : EventDoc,
        detectionsAtTwoTimes
          = Except.ok ((some e1, some e2),
              WorkerCooldowns.mk [("cam1", CooldownTracker.mk [])]))
    ∧ (CooldownTracker.can_trigger ⟨[]⟩ "person" 15 1000).1 = true
    ∧ ((CooldownTracker.can_trigger ⟨[]⟩ "person" 15 1000).2.can_trigger
        "person" 15 1010).1 = false
    ∧ ((CooldownTracker.can_trigger ⟨[]⟩ "person" 15 1000).2.can_trigger
        "person" 15 1016).1 = true := by
  have h1 : (CooldownTracker.can_trigger ⟨[]⟩ "person" 15 1000)
      = (true, ⟨[("person", 1000)]⟩) := by
    norm_num [CooldownTracker.can_trigger, CooldownTracker.lastTime, assocSet]
  refine ⟨⟨_, _, rfl⟩, ?_, ?_, ?_⟩
  · rw [h1]
  · rw [h1]
    norm_num [CooldownTracker.can_trigger, CooldownTracker.lastTime, assocSet]
  · rw [h1]
    norm_num [CooldownTracker.can_trigger, CooldownTracker.lastTime, assocSet]

/-- C2: the `DetectionWorker` class defines no `handle_deepstream_event`
method, so the receiver's detection path raises `AttributeError` on its
single attribute call, which its try/except logs — a received detection
message with a non-empty detection list therefore never reaches the
cooldown-gate-and-event-construction logic. -/
theorem detection_message_never_reaches_pipeline :
    recvDispatch detectionWorkerMethods demoDetectionMsg = HandleResult.errorLogged
    ∧ "handle_deepstream_event" ∉ detectionWorkerMethods := by
  constructor
  · rfl
  · decide

theorem evalStmts_bind (env ns : List String) (rest : List PyStmt) :
    evalStmts env (PyStmt.bind ns :: rest) = evalStmts (env ++ ns) rest := rfl

theorem evalStmts_classDef_ok (env : List String) (n : String)
    (decs refs : List String) (rest : List PyStmt)
    (h : (decs ++ refs).find? (fun r => decide (r ∉ env)) = none) :
    evalStmts env (PyStmt.classDef n decs refs :: rest)
      = evalStmts (env ++ [n]) rest := by
  conv_lhs => rw [evalStmts]
  rw [h]

theorem evalStmts_classDef_err (env : List String) (n : String)
    (decs refs : List String) (rest : List PyStmt) (r : String)
    (h : (decs ++ refs).find? (fun q => decide (q ∉ env)) = some r) :
    evalStmts env (PyStmt.classDef n decs refs :: rest) = Except.error r := by
  conv_lhs => rw [evalStmts]
  rw [h]

/-- C10: evaluating the worker module's top-level statements raises an
unbound-name error: the import block binds neither `dataclass` nor `field`,
so for any builtins namespace that does not provide `dataclass` (Python's
does not — it lives in the `dataclasses` module), execution stops with
`NameError` at the `CooldownTracker` class statement, before
`DetectionWorker` or the `detection_worker` singleton is ever bound. -/
theorem yolo_worker_import_raises_nameerror (builtins : List String)
    (hdc : "dataclass" ∉ builtins) :
    evalStmts builtins yoloWorkerModule = Except.error "dataclass"
    ∧ "dataclass" ∉ moduleBindings yoloWorkerModule
    ∧ "field" ∉ moduleBindings yoloWorkerModule := by
  refine ⟨?_, by decide, by decide⟩
  unfold yoloWorkerModule
  rw [evalStmts_bind, evalStmts_bind, evalStmts_bind, evalStmts_bind,
    evalStmts_bind, evalStmts_bind, evalStmts_bind, evalStmts_bind,
    evalStmts_bind, evalStmts_bind, evalStmts_bind, evalStmts_bind,
    evalStmts_bind, evalStmts_bind, evalStmts_bind, evalStmts_bind,
    evalStmts_bind]
  rw [evalStmts_classDef_ok]
  · rw [evalStmts_classDef_err]
    apply List.find?_cons_of_pos
    simp only [decide_eq_true_eq]
    simp [hdc]
  · apply List.find?_eq_none.mpr
    intro x hx
    simp only [List.nil_append, List.mem_singleton] at hx
    subst hx
    simp

/-- Witness for C10: with a representative builtins namespace, module
evaluation stops with the `dataclass` name error. -/
theorem yolo_worker_import_raises_nameerror_witness :
    evalStmts ["print", "len", "str", "int", "float", "min", "max"]
        yoloWorkerModule = Except.error "dataclass"
    ∧ "dataclass" ∉ moduleBindings yoloWorkerModule :=
  ⟨(yolo_worker_import_raises_nameerror
      ["print", "len", "str", "int", "float", "min", "max"] (by decide)).1,
   (yolo_worker_import_raises_nameerror
      ["print", "len", "str", "int", "float", "min", "max"] (by decide)).2.1⟩

end VisionPro
